import Mathlib

/-!
Shallow embedding of the mordred `_base.py` core: descriptor keys, the layered
molecule variant cache, the memoized recursive evaluator, and the flattening
registration protocol, together with theorems checking the specification's
claims against this embedding.

Modelling conventions:
* python classes are identified by a `Nat` tag (`is` on interned classes is
  equality of tags); constructor arguments are `List Int`;
* rdkit molecule objects live on an explicit heap (`MolSt.heap`, pointer =
  index) because `Chem.Kekulize` and `ComputeGasteigerCharges` mutate their
  argument in place;
* the recursive resolver is fuel-bounded (the source recursion is unbounded);
* each derivation / calculate invocation is logged in an instrumentation
  counter or log so that "runs exactly once" claims are stateable.
-/

set_option maxRecDepth 4000

namespace Mordred

/-- Result values computed by descriptors (Python objects, abstracted). -/
inductive Value where
  | int (n : Int)
  | none
deriving DecidableEq, Repr

/-- Descriptor identity (`Key` in the source): constructing class plus the
ordered argument tuple. -/
structure Key where
  cls : Nat
  args : List Int
deriving DecidableEq, Repr

/-- Key.__eq__ : `self.cls is other.cls and self.args == other.args`. -/
def Key.eqb (a b : Key) : Bool :=
  a.cls == b.cls && a.args == b.args

/-- Key.__ne__ : `self.cls is not other.cls or self.args != other.args`. -/
def Key.neb (a b : Key) : Bool :=
  a.cls != b.cls || a.args != b.args

/-- Model of Python's `hash` on the argument tuple. -/
def argsHash (l : List Int) : UInt64 :=
  l.foldl (fun a n => mixHash a (hash n)) 7

/-- Key.__hash__ : `hash((self.cls, self.args))`. -/
def Key.hashv (k : Key) : UInt64 :=
  mixHash (hash k.cls) (argsHash k.args)

/-- Key.__str__ : class name followed by the hash of the argument tuple. -/
def Key.strD (k : Key) : String :=
  toString k.cls ++ toString (argsHash k.args)

/-- Descriptor.make_key(*args) = Key(cls, *args). -/
def make_key (cls : Nat) (args : List Int) : Key := ⟨cls, args⟩

theorem Key.eqb_iff (a b : Key) : Key.eqb a b = true ↔ a = b := by
  cases a
  cases b
  simp [Key.eqb]

@[simp] theorem Key.eqb_self (k : Key) : Key.eqb k k = true := by
  simp [Key.eqb]

/-- An rdkit molecule object, abstracted: the raw-input id it was derived
from, its hydrogen form (`Option.none` = as-parsed), and the two flags the
in-place chemical transforms toggle. -/
structure Mol where
  raw : Nat
  hs : Option Bool
  kek : Bool
  chg : Bool
deriving DecidableEq, Repr

def defMol : Mol := ⟨0, Option.none, false, false⟩

/-- Molecule variant-cache state: object heap (pointer = index), pointer to
the original input, the flags-to-pointer cache, and instrumentation counters
for the three chemical transforms (hydration derivations, `Chem.Kekulize`
invocations, `ComputeGasteigerCharges` invocations). -/
structure MolSt where
  heap : List Mol
  orig : Nat
  mcache : List ((Bool × Bool × Bool) × Nat)
  nHyd : Nat
  nKek : Nat
  nGas : Nat
deriving DecidableEq, Repr

/-- Variant-cache lookup. -/
def mlook : List ((Bool × Bool × Bool) × Nat) → (Bool × Bool × Bool) → Option Nat
  | [], _ => Option.none
  | (k, p) :: r, q => if k = q then some p else mlook r q

/-- Chem.Kekulize: in-place bond-order canonicalization of the object at p. -/
def chemKekulize (s : MolSt) (p : Nat) : MolSt :=
  { s with heap := s.heap.set p { s.heap.getD p defMol with kek := true },
           nKek := s.nKek + 1 }

/-- ComputeGasteigerCharges: in-place charge annotation of the object at p. -/
def chemGasteiger (s : MolSt) (p : Nat) : MolSt :=
  { s with heap := s.heap.set p { s.heap.getD p defMol with chg := true },
           nGas := s.nGas + 1 }

/-- Allocate a fresh molecule object, returning its pointer. -/
def alloc (s : MolSt) (m : Mol) : Nat × MolSt :=
  (s.heap.length, { s with heap := s.heap ++ [m] })

/-- Molecule.__init__ : store the raw input and `Chem.Kekulize` it in place. -/
def Molecule.init (raw : Nat) : MolSt :=
  chemKekulize
    { heap := [⟨raw, Option.none, false, false⟩], orig := 0, mcache := [],
      nHyd := 0, nKek := 0, nGas := 0 } 0

/-- Molecule.key. -/
def Molecule.key (explicitH kekulize gasteiger : Bool) : Bool × Bool × Bool :=
  (explicitH, kekulize, gasteiger)

/-- Molecule.hydration : AddHs/RemoveHs applied to the original (both return a
fresh object), memoized under (e, false, false). -/
def Molecule.hydration (s : MolSt) (e : Bool) : Nat × MolSt :=
  match mlook s.mcache (Molecule.key e false false) with
  | some p => (p, s)
  | Option.none =>
    let o := s.heap.getD s.orig defMol
    let r := alloc s { o with hs := some e }
    (r.1, { r.2 with mcache := (Molecule.key e false false, r.1) :: r.2.mcache,
                     nHyd := r.2.nHyd + 1 })

/-- Molecule.kekulize : `Chem.Mol` copy of the same-explicitness hydration
form, then `Chem.Kekulize` on the copy, memoized under (e, true, false). -/
def Molecule.kekulize (s : MolSt) (e : Bool) : Nat × MolSt :=
  match mlook s.mcache (Molecule.key e true false) with
  | some p => (p, s)
  | Option.none =>
    let r1 := Molecule.hydration s e
    let r2 := alloc r1.2 (r1.2.heap.getD r1.1 defMol)
    let s3 := chemKekulize r2.2 r2.1
    (r2.1, { s3 with mcache := (Molecule.key e true false, r2.1) :: s3.mcache })

/-- Molecule.gasteiger : `ComputeGasteigerCharges`, in place and without a
copy, on the kekulized form when that flag is set, otherwise on the hydration
form; the mutated object itself is cached under (e, kk, true). -/
def Molecule.gasteiger (s : MolSt) (e kk : Bool) : Nat × MolSt :=
  match mlook s.mcache (Molecule.key e kk true) with
  | some p => (p, s)
  | Option.none =>
    let r := if kk then Molecule.kekulize s e else Molecule.hydration s e
    let s2 := chemGasteiger r.2 r.1
    (r.1, { s2 with mcache := (Molecule.key e kk true, r.1) :: s2.mcache })

/-- Molecule.get : cached lookup, else dispatch on the flags. -/
def Molecule.get (s : MolSt) (e kk g : Bool) : Nat × MolSt :=
  match mlook s.mcache (Molecule.key e kk g) with
  | some p => (p, s)
  | Option.none =>
    if g then Molecule.gasteiger s e kk
    else if kk then Molecule.kekulize s e
    else Molecule.hydration s e

/-! Helper lemmas about the variant cache. -/

theorem mlook_cons_self (k : Bool × Bool × Bool) (p : Nat)
    (r : List ((Bool × Bool × Bool) × Nat)) : mlook ((k, p) :: r) k = some p := by
  simp [mlook]

theorem get_hit (s : MolSt) (e kk g : Bool) (p : Nat)
    (h : mlook s.mcache (e, kk, g) = some p) : Molecule.get s e kk g = (p, s) := by
  simp [Molecule.get, Molecule.key, h]

theorem gasteiger_alias (s : MolSt) (e kk : Bool)
    (h : mlook s.mcache (e, kk, true) = Option.none) :
    (Molecule.gasteiger s e kk).1 =
      (if kk then Molecule.kekulize s e else Molecule.hydration s e).1 := by
  simp [Molecule.gasteiger, Molecule.key, h]

theorem get_caches_key (s : MolSt) (e kk g : Bool) :
    mlook (Molecule.get s e kk g).2.mcache (e, kk, g) =
      some (Molecule.get s e kk g).1 := by
  cases h : mlook s.mcache (e, kk, g) with
  | some p => simp [get_hit s e kk g p h, h]
  | none =>
    cases g with
    | true =>
      simp only [Molecule.get, Molecule.key, h]
      simp only [Molecule.gasteiger, Molecule.key, h]
      simp [mlook_cons_self]
    | false =>
      cases kk with
      | true =>
        simp only [Molecule.get, Molecule.key, h]
        simp only [Molecule.kekulize, Molecule.key, h]
        simp [mlook_cons_self]
      | false =>
        simp only [Molecule.get, Molecule.key, h]
        simp only [Molecule.hydration, Molecule.key, h]
        simp [mlook_cons_self]

/-- getD after set at a different index. -/
theorem getD_set_ne : ∀ (l : List Mol) (i j : Nat) (a d : Mol), i ≠ j →
    (l.set i a).getD j d = l.getD j d := by
  intro l
  induction l with
  | nil => intro i j a d _; simp
  | cons x xs ih =>
    intro i j a d hij
    cases i with
    | zero =>
      cases j with
      | zero => exact absurd rfl hij
      | succ j => simp [List.set, List.getD]
    | succ i =>
      cases j with
      | zero => simp [List.set, List.getD]
      | succ j =>
        simp only [List.set, List.getD_cons_succ]
        exact ih i j a d (fun h => hij (by rw [h]))

/-- getD after set at the same in-range index. -/
theorem getD_set_self : ∀ (l : List Mol) (i : Nat) (a d : Mol), i < l.length →
    (l.set i a).getD i d = a := by
  intro l
  induction l with
  | nil => intro i a d h; simp at h
  | cons x xs ih =>
    intro i a d h
    cases i with
    | zero => simp [List.set, List.getD]
    | succ i =>
      simp only [List.set, List.getD_cons_succ]
      exact ih i a d (by simpa using h)

theorem hydration_len_ge (s : MolSt) (e : Bool) :
    s.heap.length ≤ (Molecule.hydration s e).2.heap.length := by
  cases h : mlook s.mcache (Molecule.key e false false) with
  | some p => simp [Molecule.hydration, h]
  | none => simp [Molecule.hydration, h, alloc]

theorem hydration_preserves (s : MolSt) (e : Bool) (p : Nat)
    (hp : p < s.heap.length) :
    (Molecule.hydration s e).2.heap.getD p defMol = s.heap.getD p defMol := by
  cases h : mlook s.mcache (Molecule.key e false false) with
  | some q => simp [Molecule.hydration, h]
  | none =>
    simp only [Molecule.hydration, h, alloc]
    exact List.getD_append _ _ _ _ hp

theorem kekulize_preserves (s : MolSt) (e : Bool) (p : Nat)
    (hp : p < s.heap.length) :
    (Molecule.kekulize s e).2.heap.getD p defMol = s.heap.getD p defMol := by
  cases h : mlook s.mcache (Molecule.key e true false) with
  | some q => simp [Molecule.kekulize, h]
  | none =>
    have hlen : p < (Molecule.hydration s e).2.heap.length :=
      lt_of_lt_of_le hp (hydration_len_ge s e)
    simp only [Molecule.kekulize, h, alloc, chemKekulize]
    rw [getD_set_ne _ _ _ _ _ (Nat.ne_of_gt (lt_of_lt_of_le hlen (by simp)))]
    rw [List.getD_append _ _ _ _ hlen]
    exact hydration_preserves s e p hp

theorem kekulize_fresh (s : MolSt) (e : Bool)
    (h : mlook s.mcache (Molecule.key e true false) = Option.none) :
    s.heap.length ≤ (Molecule.kekulize s e).1 := by
  simp only [Molecule.kekulize, h, alloc]
  exact hydration_len_ge s e

theorem gasteiger_mutates (s : MolSt) (e kk : Bool)
    (h : mlook s.mcache (e, kk, true) = Option.none)
    (hr : (if kk then Molecule.kekulize s e else Molecule.hydration s e).1 <
          (if kk then Molecule.kekulize s e else Molecule.hydration s e).2.heap.length) :
    (Molecule.gasteiger s e kk).1 =
        (if kk then Molecule.kekulize s e else Molecule.hydration s e).1 ∧
    (Molecule.gasteiger s e kk).2.heap.getD
        (if kk then Molecule.kekulize s e else Molecule.hydration s e).1 defMol =
      { (if kk then Molecule.kekulize s e else Molecule.hydration s e).2.heap.getD
          (if kk then Molecule.kekulize s e else Molecule.hydration s e).1 defMol
        with chg := true } := by
  constructor
  · simp [Molecule.gasteiger, Molecule.key, h]
  · simp only [Molecule.gasteiger, Molecule.key, h, chemGasteiger]
    exact getD_set_self _ _ _ _ hr

theorem neb_eq_not_eqb (a b : Key) : Key.neb a b = !Key.eqb a b := by
  cases a
  cases b
  simp [Key.eqb, Key.neb, bne, Bool.not_and]

/-! Concrete run used by the C4 and C5 scenarios. -/

def c4s0 : MolSt := Molecule.init 5
def c4r1 : Nat × MolSt := Molecule.get c4s0 true false false
def c4r2 : Nat × MolSt := Molecule.get c4r1.2 true true false

def c5s0 : MolSt := Molecule.init 3
def c5r1 : Nat × MolSt := Molecule.get c5s0 true false false
def c5r2 : Nat × MolSt := Molecule.get c5r1.2 true false true

/-- C4: variant-cache memoization and staging. (1) a cached flag combination
is returned as-is, with no derivation and no state change; (2) every `get`
leaves its own flag combination cached, so each combination is derived at most
once across any request sequence; (3) when uncached, the charge-annotated form
is built from the kekulized form exactly when that flag is set, otherwise
directly from the hydration form; (4) in the concrete scenario requesting
(explicit, bond=false, charge=false) and then (explicit, bond=true,
charge=false) on one fresh cache, the first-stage hydration derivation runs
exactly once, the raw-input canonicalization having run exactly once at
construction, and the second stage is a distinct object built from the cached
first-stage object. -/
theorem c4_variant_cache :
    (∀ (s : MolSt) (e kk g : Bool) (p : Nat),
        mlook s.mcache (e, kk, g) = some p → Molecule.get s e kk g = (p, s)) ∧
    (∀ (s : MolSt) (e kk g : Bool),
        mlook (Molecule.get s e kk g).2.mcache (e, kk, g) =
          some (Molecule.get s e kk g).1) ∧
    (∀ (s : MolSt) (e kk : Bool), mlook s.mcache (e, kk, true) = Option.none →
        (Molecule.gasteiger s e kk).1 =
          (if kk then Molecule.kekulize s e else Molecule.hydration s e).1) ∧
    (c4s0.nHyd = 0 ∧ c4s0.nKek = 1 ∧
     c4r1.2.nHyd = 1 ∧ c4r2.2.nHyd = 1 ∧ c4r2.2.nKek = 2 ∧
     c4r2.1 ≠ c4r1.1 ∧
     c4r2.2.heap.getD c4r2.1 defMol =
       { c4r2.2.heap.getD c4r1.1 defMol with kek := true }) := by
  refine ⟨get_hit, get_caches_key, ?_, ?_⟩
  · intro s e kk h
    exact gasteiger_alias s e kk (by simpa [Molecule.key] using h)
  · refine ⟨by decide, by decide, by decide, by decide, by decide, by decide, by decide⟩

/-- C4 witness: the general conjuncts instantiated at concrete inputs. -/
theorem c4_variant_cache_w :
    Molecule.get ⟨[defMol], 0, [((true, false, false), 0)], 0, 0, 0⟩ true false false =
      (0, ⟨[defMol], 0, [((true, false, false), 0)], 0, 0, 0⟩) ∧
    (Molecule.gasteiger c4s0 true false).1 = (Molecule.hydration c4s0 true).1 := by
  constructor
  · exact c4_variant_cache.1 _ true false false 0 (by decide)
  · have h := c4_variant_cache.2.2.1 c4s0 true false (by decide)
    simpa using h

/-- C5 counterexample: deriving the charge-annotated variant (flags (true,
false, true)) mutates the previously cached hydration variant in place — the
object cached under (true, false, false) changes — and the new cache entry is
the very same pointer, not a distinct object. The claim, which says every
previously cached variant stays unchanged and distinct from the newly cached
one, is therefore false on the code. -/
theorem c5_purity_counterexample :
    mlook c5r1.2.mcache (true, false, false) = some c5r1.1 ∧
    c5r1.2.heap.getD c5r1.1 defMol ≠ c5r2.2.heap.getD c5r1.1 defMol ∧
    mlook c5r2.2.mcache (true, false, true) = some c5r1.1 := by
  refine ⟨by decide, by decide, by decide⟩

/-- C5 amended: the hydration stage and the bond-order stage leave every
existing object unchanged (the bond-order stage kekulizes a fresh copy, cached
at a pointer distinct from all existing ones), but the charge-annotation stage
mutates its input variant in place — it sets the charge flag on the stage
object itself and caches that same pointer rather than a distinct object. -/
theorem c5_purity_amended :
    (∀ (s : MolSt) (e : Bool) (p : Nat), p < s.heap.length →
        (Molecule.hydration s e).2.heap.getD p defMol = s.heap.getD p defMol) ∧
    (∀ (s : MolSt) (e : Bool) (p : Nat), p < s.heap.length →
        (Molecule.kekulize s e).2.heap.getD p defMol = s.heap.getD p defMol) ∧
    (∀ (s : MolSt) (e : Bool), mlook s.mcache (e, true, false) = Option.none →
        s.heap.length ≤ (Molecule.kekulize s e).1) ∧
    (∀ (s : MolSt) (e kk : Bool), mlook s.mcache (e, kk, true) = Option.none →
      (if kk then Molecule.kekulize s e else Molecule.hydration s e).1 <
          (if kk then Molecule.kekulize s e else Molecule.hydration s e).2.heap.length →
        (Molecule.gasteiger s e kk).1 =
            (if kk then Molecule.kekulize s e else Molecule.hydration s e).1 ∧
        (Molecule.gasteiger s e kk).2.heap.getD
            (if kk then Molecule.kekulize s e else Molecule.hydration s e).1 defMol =
          { (if kk then Molecule.kekulize s e else Molecule.hydration s e).2.heap.getD
              (if kk then Molecule.kekulize s e else Molecule.hydration s e).1 defMol
            with chg := true }) := by
  refine ⟨hydration_preserves, kekulize_preserves, ?_, ?_⟩
  · intro s e h
    exact kekulize_fresh s e (by simpa [Molecule.key] using h)
  · intro s e kk h hr
    exact gasteiger_mutates s e kk h hr

/-- C5 witness: the amended conjuncts instantiated concretely. -/
theorem c5_purity_amended_w :
    (Molecule.hydration c5s0 true).2.heap.getD 0 defMol = c5s0.heap.getD 0 defMol ∧
    (Molecule.kekulize c5s0 true).2.heap.getD 0 defMol = c5s0.heap.getD 0 defMol ∧
    c5s0.heap.length ≤ (Molecule.kekulize c5s0 true).1 ∧
    (Molecule.gasteiger c5r1.2 true false).1 = (Molecule.hydration c5r1.2 true).1 := by
  refine ⟨?_, ?_, ?_, ?_⟩
  · exact c5_purity_amended.1 c5s0 true 0 (by decide)
  · exact c5_purity_amended.2.1 c5s0 true 0 (by decide)
  · exact c5_purity_amended.2.2.1 c5s0 true (by decide)
  · exact (c5_purity_amended.2.2.2 c5r1.2 true false (by decide) (by decide)).1

/-- C9: Key equality is purely structural and order-sensitive on the pair
(constructing type, argument sequence); __ne__ is its pointwise negation; and
equal keys have equal hashes. -/
theorem c9_key_equality :
    Key.eqb ⟨1, [1, 2]⟩ ⟨1, [1, 2]⟩ = true ∧
    Key.eqb ⟨1, [1, 2]⟩ ⟨1, [2, 1]⟩ = false ∧
    Key.eqb ⟨1, [1, 2]⟩ ⟨2, [1, 2]⟩ = false ∧
    (∀ a b : Key, Key.neb a b = !Key.eqb a b) ∧
    (∀ a b : Key, Key.eqb a b = true → Key.hashv a = Key.hashv b) := by
  refine ⟨by decide, by decide, by decide, neb_eq_not_eqb, ?_⟩
  intro a b h
  rw [(Key.eqb_iff a b).mp h]

/-- C9 witness: the hypothesis-bearing conjuncts at concrete keys. -/
theorem c9_key_equality_w :
    Key.neb ⟨1, [1, 2]⟩ ⟨1, [2, 1]⟩ = !Key.eqb ⟨1, [1, 2]⟩ ⟨1, [2, 1]⟩ ∧
    Key.hashv ⟨1, [1, 2]⟩ = Key.hashv ⟨1, [1, 2]⟩ := by
  constructor
  · exact c9_key_equality.2.2.2.1 ⟨1, [1, 2]⟩ ⟨1, [2, 1]⟩
  · exact c9_key_equality.2.2.2.2 ⟨1, [1, 2]⟩ ⟨1, [1, 2]⟩ (by decide)

/-- A concrete descriptor instance: constructing class, the constructor
arguments it was built with, an optional descriptor_key override
(`Option.none` = the inherited default property), the three variant
requirement flags, the dependency mapping (name to none / bare Key /
descriptor instance), and the calculate method. -/
inductive Descriptor where
  | mk (cls : Nat) (ctorArgs : List Int) (keyOver : Option Key)
      (explicit_hydrogens gasteiger_charges kekulize : Bool)
      (deps : List (String × Option (Key ⊕ Descriptor)))
      (calcFn : Mol → List (String × Value) → Except Nat Value)

def Descriptor.cls : Descriptor → Nat
  | .mk c _ _ _ _ _ _ _ => c

def Descriptor.ctorArgs : Descriptor → List Int
  | .mk _ a _ _ _ _ _ _ => a

def Descriptor.keyOver : Descriptor → Option Key
  | .mk _ _ k _ _ _ _ _ => k

def Descriptor.explicit_hydrogens : Descriptor → Bool
  | .mk _ _ _ e _ _ _ _ => e

def Descriptor.gasteiger_charges : Descriptor → Bool
  | .mk _ _ _ _ g _ _ _ => g

def Descriptor.kekulize : Descriptor → Bool
  | .mk _ _ _ _ _ kk _ _ => kk

def Descriptor.dependencies : Descriptor → List (String × Option (Key ⊕ Descriptor))
  | .mk _ _ _ _ _ _ d _ => d

def Descriptor.calculate : Descriptor → Mol → List (String × Value) → Except Nat Value
  | .mk _ _ _ _ _ _ _ f => f

/-- Default Descriptor.descriptor_key property: `self.make_key()` — the class
with an EMPTY argument tuple; an override models a subclass redefining the
property. -/
def Descriptor.descriptor_key (d : Descriptor) : Key :=
  match d.keyOver with
  | some k => k
  | Option.none => make_key d.cls []

/-- Descriptor.descriptor_name : `str(self.descriptor_key)`. -/
def Descriptor.descriptor_name (d : Descriptor) : String :=
  Key.strD d.descriptor_key

def c6d1 : Descriptor :=
  Descriptor.mk 7 [1] Option.none true false false [] (fun _ _ => Except.ok (Value.int 1))

def c6d2 : Descriptor :=
  Descriptor.mk 7 [2] Option.none true false false [] (fun _ _ => Except.ok (Value.int 2))

/-- C6 counterexample: two instances of the same class, built with different
constructor arguments and neither overriding descriptor_key, receive EQUAL
default keys — `descriptor_key` calls `make_key()` with no arguments, so the
constructor arguments are not part of the default identity, contradicting the
claim that such instances have unequal descriptor keys. -/
theorem c6_default_key_counterexample :
    c6d1.ctorArgs ≠ c6d2.ctorArgs ∧
    c6d1.keyOver = Option.none ∧ c6d2.keyOver = Option.none ∧
    c6d1.descriptor_key = c6d2.descriptor_key ∧
    Key.eqb c6d1.descriptor_key c6d2.descriptor_key = true := by
  refine ⟨by decide, by decide, by decide, by decide, by decide⟩

/-- C6 amended: the default descriptor_key is the constructing class with an
empty argument tuple (the registration arguments are NOT included), so
same-class instances share one default key regardless of their constructor
arguments; keys built through make_key with the arguments passed do separate
different argument lists. -/
theorem c6_default_key_amended :
    (∀ d : Descriptor, d.keyOver = Option.none → d.descriptor_key = make_key d.cls []) ∧
    make_key 7 [1] ≠ make_key 7 [2] ∧
    Key.eqb (make_key 7 [1]) (make_key 7 [2]) = false := by
  refine ⟨?_, by decide, by decide⟩
  intro d h
  simp [Descriptor.descriptor_key, h]

/-- C6 witness: the default-key conjunct instantiated at a concrete
instance. -/
theorem c6_default_key_amended_w : c6d1.descriptor_key = make_key c6d1.cls [] :=
  c6_default_key_amended.1 c6d1 (by decide)

/-! The evaluator (`Calculator._calculate` and `Calculator.__call__`). -/

/-- The class table behind `Key.create`: `Key(cls, *args).create()` either
returns the constructed instance or fails (ValueError). -/
abbrev Env : Type := Key → Option Descriptor

inductive EvalErr where
  | fuelOut
  | createFail (k : Key)
  | comp (e : Nat)
  | attrErr
deriving DecidableEq, Repr

/-- Per-call evaluation state: the result cache dict, the molecule variant
cache reached through `self.molecule`, and the instrumentation log of the keys
stored after each `calculate` invocation. -/
structure CalcSt where
  cache : List (Key × Value)
  mol : MolSt
  log : List Key
deriving DecidableEq, Repr

/-- Result-cache lookup, using Key.__eq__. -/
def clook : List (Key × Value) → Key → Option Value
  | [], _ => Option.none
  | (k, v) :: r, q => if Key.eqb k q then some v else clook r q

theorem clook_cons_self (k : Key) (v : Value) (r : List (Key × Value)) :
    clook ((k, v) :: r) k = some v := by
  simp [clook]

/-- `desc.descriptor_key` on a Key-or-instance: `Key.descriptor_key` is the
key itself. -/
def lookKey : Key ⊕ Descriptor → Key
  | Sum.inl k => k
  | Sum.inr d => d.descriptor_key

/-- Line 190: `if isinstance(desc, Key): desc = desc.create()`. -/
def createIf (env : Env) : Key ⊕ Descriptor → Except EvalErr Descriptor
  | Sum.inl k =>
    match env k with
    | some d => Except.ok d
    | Option.none => Except.error (EvalErr.createFail k)
  | Sum.inr d => Except.ok d

/-- Resolve the declared dependencies in declaration order; a None entry
passes through as Value.none without resolution; an error propagates together
with the state mutations performed so far. -/
def depsGo (rec : CalcSt → Key ⊕ Descriptor → (Except EvalErr Value) × CalcSt) :
    List (String × Option (Key ⊕ Descriptor)) → CalcSt →
      (Except EvalErr (List (String × Value))) × CalcSt
  | [], st => (Except.ok [], st)
  | (nm, od) :: rest, st =>
    match od with
    | Option.none =>
      let r := depsGo rec rest st
      (r.1.map (fun l => (nm, Value.none) :: l), r.2)
    | some x =>
      let r := rec st x
      match r.1 with
      | Except.error e => (Except.error e, r.2)
      | Except.ok v =>
        let r2 := depsGo rec rest r.2
        (r2.1.map (fun l => (nm, v) :: l), r2.2)

/-- Calculator._calculate, fuel-bounded: memo lookup under the requested
descriptor_key; lazy Key instantiation; recursive dependency resolution;
variant fetch from the molecule cache; `desc.calculate`; store under the
(possibly freshly created) instance's own descriptor_key, logging the store
key of every calculate invocation. -/
def calcOne (env : Env) : Nat → CalcSt → Key ⊕ Descriptor →
    (Except EvalErr Value) × CalcSt
  | 0, st, _ => (Except.error EvalErr.fuelOut, st)
  | fuel + 1, st, x =>
    match clook st.cache (lookKey x) with
    | some v => (Except.ok v, st)
    | Option.none =>
      match createIf env x with
      | Except.error e => (Except.error e, st)
      | Except.ok d =>
        let r := depsGo (fun s y => calcOne env fuel s y) d.dependencies st
        match r.1 with
        | Except.error e => (Except.error e, r.2)
        | Except.ok args =>
          let g := Molecule.get r.2.mol d.explicit_hydrogens d.kekulize d.gasteiger_charges
          match d.calculate (g.2.heap.getD g.1 defMol) args with
          | Except.error ce => (Except.error (EvalErr.comp ce), { r.2 with mol := g.2 })
          | Except.ok v =>
            (Except.ok v,
             { cache := (d.descriptor_key, v) :: r.2.cache,
               mol := g.2,
               log := r.2.log ++ [d.descriptor_key] })

/-- Calculator: the ordered descriptor registry, the aggregate flags, and the
`self.molecule` attribute mutated by every `__call__`. -/
structure Calculator where
  descriptors : List Descriptor
  explicitH : Bool
  gasteiger : Bool
  kekulize : Bool
  molecule : Option MolSt

/-- Eager part of Calculator.__call__ : `self.molecule = Molecule(mol)`; the
pair sequence itself is returned lazily. -/
def Calculator.callStart (c : Calculator) (raw : Nat) : Calculator :=
  { c with molecule := some (Molecule.init raw) }

/-- Consume the lazy generator body: resolve each registered descriptor in
registration order against the shared per-call state, stopping at the first
error; already-yielded pairs and all state mutations survive. -/
def consumeAux (env : Env) (fuel : Nat) :
    List Descriptor → CalcSt → List (String × Value) × Option EvalErr × CalcSt
  | [], st => ([], Option.none, st)
  | d :: rest, st =>
    let r := calcOne env fuel st (Sum.inr d)
    match r.1 with
    | Except.error e => ([], some e, r.2)
    | Except.ok v =>
      let r2 := consumeAux env fuel rest r.2
      ((d.descriptor_name, v) :: r2.1, r2.2.1, r2.2.2)

/-- Full consumption of the generator returned by Calculator.__call__ : a
fresh result cache per generator; the molecule is read from the calculator at
consumption time and its mutations written back. -/
def Calculator.consume (env : Env) (fuel : Nat) (c : Calculator) :
    List (String × Value) × Option EvalErr × Calculator :=
  match c.molecule with
  | Option.none => ([], some EvalErr.attrErr, c)
  | some ms =>
    let r := consumeAux env fuel c.descriptors { cache := [], mol := ms, log := [] }
    (r.1, r.2.1, { c with molecule := some r.2.2.mol })

/-! Evaluator lemmas and concrete runs. -/

instance {ε α : Type} [DecidableEq ε] [DecidableEq α] : DecidableEq (Except ε α) := fun a b =>
  match a, b with
  | Except.error x, Except.error y =>
    if h : x = y then isTrue (by rw [h])
    else isFalse (fun hc => h (by injection hc))
  | Except.error _, Except.ok _ => isFalse (fun hc => by cases hc)
  | Except.ok _, Except.error _ => isFalse (fun hc => by cases hc)
  | Except.ok x, Except.ok y =>
    if h : x = y then isTrue (by rw [h])
    else isFalse (fun hc => h (by injection hc))

theorem calc_hit (env : Env) (n : Nat) (st : CalcSt) (x : Key ⊕ Descriptor)
    (v : Value) (h : clook st.cache (lookKey x) = some v) :
    calcOne env (n + 1) st x = (Except.ok v, st) := by
  simp [calcOne, h]

theorem calc_stores (env : Env) (n : Nat) (st : CalcSt) (d : Descriptor)
    (v : Value) (st2 : CalcSt)
    (h : calcOne env n st (Sum.inr d) = (Except.ok v, st2)) :
    clook st2.cache d.descriptor_key = some v := by
  cases n with
  | zero => simp [calcOne] at h
  | succ n =>
    simp only [calcOne, lookKey, createIf] at h
    split at h
    next w hw =>
      simp only [Prod.mk.injEq, Except.ok.injEq] at h
      rw [← h.2, ← h.1]
      exact hw
    next hw =>
      split at h
      next e he => simp at h
      next args hargs =>
        split at h
        next ce hce => simp at h
        next w hcw =>
          simp only [Prod.mk.injEq, Except.ok.injEq] at h
          rw [← h.2, ← h.1]
          exact clook_cons_self _ _ _

def env0 : Env := fun _ => Option.none

/-- Diamond scenario for C1: descriptors B and C both depend on instance A. -/
def dA : Descriptor :=
  Descriptor.mk 10 [] Option.none true false false [] (fun _ _ => Except.ok (Value.int 42))

def dB : Descriptor :=
  Descriptor.mk 11 [] Option.none true false false [("a", some (Sum.inr dA))]
    (fun _ args => Except.ok (args.headD ("", Value.none)).2)

def dC : Descriptor :=
  Descriptor.mk 12 [] Option.none true false false [("a", some (Sum.inr dA))]
    (fun _ args => Except.ok (args.headD ("", Value.none)).2)

def diamondSt : List (String × Value) × Option EvalErr × CalcSt :=
  consumeAux env0 6 [dB, dC] { cache := [], mol := Molecule.init 0, log := [] }

/-- C1 amended: once a descriptor identity is in the per-call result cache,
every later reference to it returns the cached value with no state change and
no calculate invocation; every successful resolution of a descriptor instance
leaves its value cached under its descriptor_key; hence in the diamond where B
and C both depend on instance A, A's calculate runs exactly once and both B
and C receive the identical cached value (here 42). -/
theorem c1_memo_amended :
    (∀ (env : Env) (n : Nat) (st : CalcSt) (x : Key ⊕ Descriptor) (v : Value),
        clook st.cache (lookKey x) = some v →
        calcOne env (n + 1) st x = (Except.ok v, st)) ∧
    (∀ (env : Env) (n : Nat) (st : CalcSt) (d : Descriptor) (v : Value) (st2 : CalcSt),
        calcOne env n st (Sum.inr d) = (Except.ok v, st2) →
        clook st2.cache d.descriptor_key = some v) ∧
    (diamondSt.2.2.log.count dA.descriptor_key = 1 ∧
     diamondSt.1 = [(dB.descriptor_name, Value.int 42), (dC.descriptor_name, Value.int 42)] ∧
     diamondSt.2.1 = Option.none) := by
  refine ⟨calc_hit, calc_stores, by decide, ?_, by decide⟩
  rfl

/-- C1 witness: the hypothesis-bearing conjuncts instantiated on a concrete
state and run. -/
theorem c1_memo_amended_w :
    calcOne env0 1 { cache := [(⟨10, []⟩, Value.int 42)], mol := Molecule.init 0, log := [] }
        (Sum.inl ⟨10, []⟩) =
      (Except.ok (Value.int 42),
       { cache := [(⟨10, []⟩, Value.int 42)], mol := Molecule.init 0, log := [] }) ∧
    clook (calcOne env0 3 { cache := [], mol := Molecule.init 0, log := [] }
        (Sum.inr dA)).2.cache dA.descriptor_key = some (Value.int 42) := by
  constructor
  · exact c1_memo_amended.1 env0 0 _ (Sum.inl ⟨10, []⟩) (Value.int 42) (by decide)
  · exact c1_memo_amended.2.1 env0 3 { cache := [], mol := Molecule.init 0, log := [] } dA
      (Value.int 42)
      (calcOne env0 3 { cache := [], mol := Molecule.init 0, log := [] } (Sum.inr dA)).2 rfl

/-- Keyed scenario refuting C1 as stated: B and C both depend on Key(7, (1,)),
whose created instance has the DEFAULT descriptor_key Key(7, ()), so the
lookup key never matches the store key. -/
def tKey : Key := ⟨7, [1]⟩

def dT : Descriptor :=
  Descriptor.mk 7 [1] Option.none true false false [] (fun _ _ => Except.ok (Value.int 5))

def envT : Env := fun k => if k = tKey then some dT else Option.none

def dB2 : Descriptor :=
  Descriptor.mk 8 [] Option.none true false false [("a", some (Sum.inl tKey))]
    (fun _ args => Except.ok (args.headD ("", Value.none)).2)

def dC2 : Descriptor :=
  Descriptor.mk 9 [] Option.none true false false [("a", some (Sum.inl tKey))]
    (fun _ args => Except.ok (args.headD ("", Value.none)).2)

def keyedRun : List (String × Value) × Option EvalErr × CalcSt :=
  consumeAux envT 6 [dB2, dC2] { cache := [], mol := Molecule.init 0, log := [] }

/-- C1 counterexample: in one evaluation pass the identity Key(7, ()) has its
calculate invoked TWICE — the dependency is requested as Key(7, (1,)), the
created instance stores its result under its default key Key(7, ()), and the
next request for Key(7, (1,)) misses the cache — refuting "at most once per
descriptor identity". -/
theorem c1_memo_counterexample :
    keyedRun.2.2.log.count (⟨7, []⟩ : Key) = 2 ∧ keyedRun.2.1 = Option.none := by
  refine ⟨by decide, by decide⟩

/-- Cyclic scenario for C2: the instance created for Key(3, ()) depends on
Key(3, ()) again, and its result is only cached after its dependencies
resolve, so resolution re-enters itself forever. -/
def kA : Key := ⟨3, []⟩

def dCyc : Descriptor :=
  Descriptor.mk 3 [] Option.none true false false [("a", some (Sum.inl kA))]
    (fun _ _ => Except.ok (Value.int 0))

def envCyc : Env := fun k => if k = kA then some dCyc else Option.none

def cycSt0 : CalcSt := { cache := [], mol := Molecule.init 0, log := [] }

/-- C2 counterexample: on the cyclic graph, resolution with recursion budget
30 exhausts the budget; the evaluator has no in-progress set and no
CycleDetected failure — the claim that evaluate() fails with CycleDetected is
false on the code (the spec itself flags cycle detection as a deliberate
strengthening over the source). -/
theorem c2_cycle_counterexample :
    (calcOne envCyc 30 cycSt0 (Sum.inl kA)).1 = Except.error EvalErr.fuelOut := by
  decide

/-- C2 amended: the source evaluator recurses unboundedly on a cyclic
dependency graph — for EVERY recursion budget, resolving the cyclic identity
exhausts the budget instead of failing with a cycle error or returning. -/
theorem c2_cycle_amended :
    ∀ fuel : Nat, (calcOne envCyc fuel cycSt0 (Sum.inl kA)).1 = Except.error EvalErr.fuelOut := by
  intro fuel
  induction fuel with
  | zero => rfl
  | succ n ih =>
    simp only [cycSt0] at ih ⊢
    simp only [calcOne, lookKey, createIf, envCyc, dCyc, clook, depsGo,
      Descriptor.dependencies, if_pos]
    rw [ih]

/-! C3: per-call state ownership. -/

def c3desc : Descriptor :=
  Descriptor.mk 1 [] Option.none true false false [] (fun m _ => Except.ok (Value.int m.raw))

def c3calc : Calculator := ⟨[c3desc], false, false, false, Option.none⟩

/-- C3 counterexample: the variant cache is stored as the mutable attribute
`self.molecule` on the Calculator and retained after the call, and the lazy
pair sequence reads it at consumption time — so consuming call 1's output
after call 2 has started yields call 2's values: evaluate(1) consumed
immediately yields raw 1, but consumed after callStart(2) yields raw 2. This
refutes both "no component retains any per-call state after the call" and
"the output of one call is unaffected by the other call having been
started". -/
theorem c3_state_counterexample :
    (Calculator.consume env0 5 (c3calc.callStart 1)).1 =
        [(c3desc.descriptor_name, Value.int 1)] ∧
    (Calculator.consume env0 5 ((c3calc.callStart 1).callStart 2)).1 =
        [(c3desc.descriptor_name, Value.int 2)] ∧
    (Calculator.consume env0 5 (c3calc.callStart 1)).1 ≠
        (Calculator.consume env0 5 ((c3calc.callStart 1).callStart 2)).1 ∧
    (Calculator.consume env0 5 (c3calc.callStart 1)).2.2.molecule ≠ Option.none := by
  refine ⟨rfl, rfl, by decide, by decide⟩

/-- C3 amended: the per-call RESULT cache is exclusively owned (created fresh
inside each call), and a call that is started and fully consumed before the
next call starts depends only on the registered descriptor list and its own
raw input — so a registry is safely reusable across many raw inputs
sequentially; but the variant cache (self.molecule) is a mutable attribute of
the Calculator, overwritten by every call start and retained after the call
ends. -/
theorem c3_state_amended :
    (∀ (env : Env) (fuel : Nat) (c1 c2 : Calculator) (raw : Nat),
        c1.descriptors = c2.descriptors →
        (Calculator.consume env fuel (c1.callStart raw)).1 =
            (Calculator.consume env fuel (c2.callStart raw)).1 ∧
        (Calculator.consume env fuel (c1.callStart raw)).2.1 =
            (Calculator.consume env fuel (c2.callStart raw)).2.1) ∧
    (∀ (c : Calculator) (raw : Nat),
        (c.callStart raw).molecule = some (Molecule.init raw)) := by
  constructor
  · intro env fuel c1 c2 raw h
    simp only [Calculator.consume, Calculator.callStart]
    rw [h]
    exact ⟨rfl, rfl⟩
  · intro c raw
    rfl

/-- C3 witness: the reuse conjunct instantiated at two calculators with the
same descriptor list but different prior molecule state. -/
theorem c3_state_amended_w :
    (Calculator.consume env0 5 ((⟨[c3desc], false, false, false,
        some (Molecule.init 9)⟩ : Calculator).callStart 1)).1 =
      (Calculator.consume env0 5 (c3calc.callStart 1)).1 :=
  (c3_state_amended.1 env0 5 _ c3calc 1 rfl).1

/-! C8: computation-error propagation. -/

theorem consumeAux_append (env : Env) (fuel : Nat) :
    ∀ (xs ys : List Descriptor) (st : CalcSt),
      consumeAux env fuel (xs ++ ys) st =
        match (consumeAux env fuel xs st).2.1 with
        | some _ => consumeAux env fuel xs st
        | Option.none =>
          ((consumeAux env fuel xs st).1 ++
             (consumeAux env fuel ys (consumeAux env fuel xs st).2.2).1,
           (consumeAux env fuel ys (consumeAux env fuel xs st).2.2).2.1,
           (consumeAux env fuel ys (consumeAux env fuel xs st).2.2).2.2) := by
  intro xs
  induction xs with
  | nil =>
    intro ys st
    simp [consumeAux]
  | cons d xs ih =>
    intro ys st
    simp only [List.cons_append, consumeAux]
    cases hr : (calcOne env fuel st (Sum.inr d)).1 with
    | error e => simp
    | ok v =>
      simp only [List.append_eq]
      rw [ih ys]
      cases hx : (consumeAux env fuel xs (calcOne env fuel st (Sum.inr d)).2).2.1 with
      | some e => simp [hx]
      | none => simp [hx]

def d81 : Descriptor :=
  Descriptor.mk 21 [] Option.none true false false [] (fun _ _ => Except.ok (Value.int 1))

def d8bad : Descriptor :=
  Descriptor.mk 22 [] Option.none true false false [] (fun _ _ => Except.error 99)

def d83 : Descriptor :=
  Descriptor.mk 23 [] Option.none true false false [] (fun _ _ => Except.ok (Value.int 3))

def st80 : CalcSt := { cache := [], mol := Molecule.init 4, log := [] }

def run8 : List (String × Value) × Option EvalErr × CalcSt :=
  consumeAux env0 5 [d81, d8bad, d83] st80

/-- C8: a ComputationError raised inside calculate propagates to the consumer
unmodified (here the domain payload 99), nothing is stored in the result cache
under the failing identity, consumption of the lazy sequence aborts at that
element, and — in general, for every split of the descriptor list — the pairs
yielded before the failing element equal exactly those of consuming the prefix
alone, so they remain valid and unaffected. -/
theorem c8_error_propagation :
    (∀ (env : Env) (fuel : Nat) (xs ys : List Descriptor) (st : CalcSt),
      consumeAux env fuel (xs ++ ys) st =
        match (consumeAux env fuel xs st).2.1 with
        | some _ => consumeAux env fuel xs st
        | Option.none =>
          ((consumeAux env fuel xs st).1 ++
             (consumeAux env fuel ys (consumeAux env fuel xs st).2.2).1,
           (consumeAux env fuel ys (consumeAux env fuel xs st).2.2).2.1,
           (consumeAux env fuel ys (consumeAux env fuel xs st).2.2).2.2)) ∧
    (run8.2.1 = some (EvalErr.comp 99) ∧
     run8.1 = [(d81.descriptor_name, Value.int 1)] ∧
     run8.1 = (consumeAux env0 5 [d81] st80).1 ∧
     clook run8.2.2.cache d8bad.descriptor_key = Option.none ∧
     clook run8.2.2.cache d81.descriptor_key = some (Value.int 1)) := by
  refine ⟨consumeAux_append, by decide, rfl, rfl, by decide, by decide⟩

/-! The registration protocol (`Calculator.register`, lines 145-184). -/

/-- A Python type as seen by registration: whether it is a Descriptor
subclass (otherwise it has no `preset` and `issubclass` filters it), the
instances its `preset()` yields, and its constructor on argument lists
(`Option.none` = TypeError). -/
structure DType where
  isDesc : Bool
  presetL : List Descriptor
  construct : List Int → Option Descriptor

/-- A module attribute: a class, or a non-class object (on which `issubclass`
raises TypeError). -/
inductive MAttr where
  | cls (t : DType)
  | nonClass

/-! A registration item: descriptor instance, non-descriptor object, type,
module (named attribute list), `(type, *args)` tuple, or nested sequence. -/
mutual
inductive RegTree where
  | inst (d : Descriptor)
  | nonDesc
  | typ (t : DType)
  | mod (attrs : List (String × MAttr))
  | tup (t : DType) (args : List Int)
  | seq (f : RegForest)
inductive RegForest where
  | nil
  | cons (t : RegTree) (f : RegForest)
end

inductive RegErr where
  | notDesc
  | noPreset
  | typeErr
  | ctorErr
deriving DecidableEq, Repr

/-- Calculator._register_one : append and aggregate the variant flags. -/
def register_one (c : Calculator) (d : Descriptor) : Calculator :=
  { c with descriptors := c.descriptors ++ [d],
           explicitH := c.explicitH || d.explicit_hydrogens,
           gasteiger := c.gasteiger || d.gasteiger_charges,
           kekulize := c.kekulize || d.kekulize }

/-- getattr on the module's attribute list. -/
def lookupAttr : List (String × MAttr) → String → Option MAttr
  | [], _ => Option.none
  | (m, a) :: r, n => if m = n then some a else lookupAttr r n

/-- name[:1] == '_' : the attribute name starts with an underscore. -/
def underscoreFirst (n : String) : Bool :=
  match n.data with
  | [] => false
  | c :: _ => c == '_'

/-- dir(module): the attribute names in alphabetical (code-point
lexicographic) order. -/
def dirNames (attrs : List (String × MAttr)) : List String :=
  List.insertionSort (fun a b => a.data ≤ b.data) (attrs.map Prod.fst)

/-- Registering a type: iterate its preset(); a non-Descriptor type has no
preset (AttributeError). -/
def registerTyp (c : Calculator) (t : DType) : Except RegErr Calculator :=
  if t.isDesc then Except.ok (t.presetL.foldl register_one c)
  else Except.error RegErr.noPreset

/-- The module loop: `for name in dir(desc)`, skipping names whose first
character is an underscore, recursing on attributes that are Descriptor
subclasses, silently skipping other classes, and failing on non-class
attributes (issubclass raises TypeError). -/
def registerNames (attrs : List (String × MAttr)) :
    Calculator → List String → Except RegErr Calculator
  | c, [] => Except.ok c
  | c, n :: rest =>
    if underscoreFirst n then registerNames attrs c rest
    else
      match lookupAttr attrs n with
      | Option.none => registerNames attrs c rest
      | some MAttr.nonClass => Except.error RegErr.typeErr
      | some (MAttr.cls t) =>
        if t.isDesc then
          match registerTyp c t with
          | Except.error e => Except.error e
          | Except.ok c2 => registerNames attrs c2 rest
        else registerNames attrs c rest

/-! Calculator.register on one item / on the whole argument tuple. -/
mutual
def registerTree (c : Calculator) : RegTree → Except RegErr Calculator
  | RegTree.inst d => Except.ok (register_one c d)
  | RegTree.nonDesc => Except.error RegErr.notDesc
  | RegTree.typ t => registerTyp c t
  | RegTree.mod attrs => registerNames attrs c (dirNames attrs)
  | RegTree.tup t args =>
    match t.construct args with
    | some d => Except.ok (register_one c d)
    | Option.none => Except.error RegErr.ctorErr
  | RegTree.seq f => registerForest c f
def registerForest (c : Calculator) : RegForest → Except RegErr Calculator
  | RegForest.nil => Except.ok c
  | RegForest.cons t f =>
    match registerTree c t with
    | Except.error e => Except.error e
    | Except.ok c2 => registerForest c2 f
end

/-- The flat resolution semantics of one item: the ordered list of concrete
descriptor instances it stands for. -/
def resolveTyp (t : DType) : Except RegErr (List Descriptor) :=
  if t.isDesc then Except.ok t.presetL else Except.error RegErr.noPreset

def resolveNames (attrs : List (String × MAttr)) :
    List String → Except RegErr (List Descriptor)
  | [] => Except.ok []
  | n :: rest =>
    if underscoreFirst n then resolveNames attrs rest
    else
      match lookupAttr attrs n with
      | Option.none => resolveNames attrs rest
      | some MAttr.nonClass => Except.error RegErr.typeErr
      | some (MAttr.cls t) =>
        if t.isDesc then
          match resolveNames attrs rest with
          | Except.error e => Except.error e
          | Except.ok l => Except.ok (t.presetL ++ l)
        else resolveNames attrs rest

mutual
def resolveTree : RegTree → Except RegErr (List Descriptor)
  | RegTree.inst d => Except.ok [d]
  | RegTree.nonDesc => Except.error RegErr.notDesc
  | RegTree.typ t => resolveTyp t
  | RegTree.mod attrs => resolveNames attrs (dirNames attrs)
  | RegTree.tup t args =>
    match t.construct args with
    | some d => Except.ok [d]
    | Option.none => Except.error RegErr.ctorErr
  | RegTree.seq f => resolveForest f
def resolveForest : RegForest → Except RegErr (List Descriptor)
  | RegForest.nil => Except.ok []
  | RegForest.cons t f =>
    match resolveTree t with
    | Except.error e => Except.error e
    | Except.ok l =>
      match resolveForest f with
      | Except.error e => Except.error e
      | Except.ok l2 => Except.ok (l ++ l2)
end

def RegForest.append : RegForest → RegForest → RegForest
  | RegForest.nil, f => f
  | RegForest.cons t f, f2 => RegForest.cons t (RegForest.append f f2)

def exOk {ε α : Type} : Except ε α → Bool
  | Except.ok _ => true
  | Except.error _ => false

/-- A public module attribute on which registration must raise (issubclass on
a non-class). -/
def attrBad (attrs : List (String × MAttr)) (n : String) : Bool :=
  !(underscoreFirst n) &&
    match lookupAttr attrs n with
    | some MAttr.nonClass => true
    | _ => false

def modBad (attrs : List (String × MAttr)) : Bool :=
  (dirNames attrs).any (attrBad attrs)

/-! Items that do not ultimately resolve to concrete descriptor instances. -/
mutual
def hasBadT : RegTree → Bool
  | RegTree.inst _ => false
  | RegTree.nonDesc => true
  | RegTree.typ t => !t.isDesc
  | RegTree.mod attrs => modBad attrs
  | RegTree.tup t args => (t.construct args).isNone
  | RegTree.seq f => hasBadF f
def hasBadF : RegForest → Bool
  | RegForest.nil => false
  | RegForest.cons t f => hasBadT t || hasBadF f
end

/-! Flattening lemmas for registration. -/

theorem registerTyp_eq (c : Calculator) (t : DType) :
    registerTyp c t =
      match resolveTyp t with
      | Except.error e => Except.error e
      | Except.ok l => Except.ok (l.foldl register_one c) := by
  simp only [registerTyp, resolveTyp]
  split
  · rfl
  · rfl

theorem registerNames_eq (attrs : List (String × MAttr)) :
    ∀ (ns : List String) (c : Calculator),
      registerNames attrs c ns =
        match resolveNames attrs ns with
        | Except.error e => Except.error e
        | Except.ok l => Except.ok (l.foldl register_one c) := by
  intro ns
  induction ns with
  | nil => intro c; rfl
  | cons n rest ih =>
    intro c
    simp only [registerNames, resolveNames]
    by_cases hu : underscoreFirst n
    · simp [hu, ih]
    · simp only [hu, Bool.false_eq_true, if_false]
      cases hl : lookupAttr attrs n with
      | none => simp [ih]
      | some a =>
        cases a with
        | nonClass => rfl
        | cls t =>
          by_cases ht : t.isDesc
          · simp only [ht, if_true, registerTyp, resolveTyp]
            rw [ih]
            cases hres : resolveNames attrs rest with
            | error e => rfl
            | ok l => simp [List.foldl_append]
          · simp [ht, ih]

mutual
theorem registerTree_eq (c : Calculator) (t : RegTree) :
    registerTree c t =
      match resolveTree t with
      | Except.error e => Except.error e
      | Except.ok l => Except.ok (l.foldl register_one c) := by
  cases t with
  | inst d => rfl
  | nonDesc => rfl
  | typ t => exact registerTyp_eq c t
  | mod attrs => exact registerNames_eq attrs (dirNames attrs) c
  | tup t args =>
    simp only [registerTree, resolveTree]
    cases t.construct args with
    | some d => rfl
    | none => rfl
  | seq f =>
    simp only [registerTree, resolveTree]
    exact registerForest_eq c f
theorem registerForest_eq (c : Calculator) (f : RegForest) :
    registerForest c f =
      match resolveForest f with
      | Except.error e => Except.error e
      | Except.ok l => Except.ok (l.foldl register_one c) := by
  cases f with
  | nil => rfl
  | cons t f =>
    simp only [registerForest, resolveForest]
    rw [registerTree_eq c t]
    cases resolveTree t with
    | error e => rfl
    | ok l =>
      simp only []
      rw [registerForest_eq (l.foldl register_one c) f]
      cases resolveForest f with
      | error e => rfl
      | ok l2 => simp [List.foldl_append]
end

theorem resolveForest_append (f1 f2 : RegForest) :
    resolveForest (RegForest.append f1 f2) =
      match resolveForest f1 with
      | Except.error e => Except.error e
      | Except.ok l1 =>
        match resolveForest f2 with
        | Except.error e => Except.error e
        | Except.ok l2 => Except.ok (l1 ++ l2) := by
  cases f1 with
  | nil =>
    simp only [RegForest.append, resolveForest]
    cases resolveForest f2 with
    | error e => rfl
    | ok l2 => simp
  | cons t f =>
    simp only [RegForest.append, resolveForest]
    cases resolveTree t with
    | error e => rfl
    | ok l =>
      simp only []
      rw [resolveForest_append f f2]
      cases resolveForest f with
      | error e => rfl
      | ok l1 =>
        cases resolveForest f2 with
        | error e => rfl
        | ok l2 => simp

theorem resolveNames_bad (attrs : List (String × MAttr)) :
    ∀ ns : List String, ns.any (attrBad attrs) = true →
      resolveNames attrs ns = Except.error RegErr.typeErr := by
  intro ns
  induction ns with
  | nil => intro h; simp at h
  | cons n rest ih =>
    intro h
    simp only [List.any_cons, Bool.or_eq_true] at h
    simp only [resolveNames]
    by_cases hu : underscoreFirst n
    · rw [if_pos hu]
      apply ih
      rcases h with h | h
      · simp [attrBad, hu] at h
      · exact h
    · simp only [hu, Bool.false_eq_true, if_false]
      cases hl : lookupAttr attrs n with
      | none =>
        apply ih
        rcases h with h | h
        · simp [attrBad, hu, hl] at h
        · exact h
      | some a =>
        cases a with
        | nonClass => rfl
        | cls t =>
          have hrest : rest.any (attrBad attrs) = true := by
            rcases h with h | h
            · simp [attrBad, hu, hl] at h
            · exact h
          by_cases ht : t.isDesc
          · simp only [ht, if_true]
            rw [ih hrest]
          · simp only [ht, Bool.false_eq_true, if_false]
            exact ih hrest

mutual
theorem resolveTree_bad (t : RegTree) (h : hasBadT t = true) :
    exOk (resolveTree t) = false := by
  cases t with
  | inst d => exact absurd h (by simp [hasBadT])
  | nonDesc => rfl
  | typ t =>
    simp only [hasBadT, Bool.not_eq_true'] at h
    simp [resolveTree, resolveTyp, h, exOk]
  | mod attrs =>
    simp only [hasBadT, modBad] at h
    simp [resolveTree, resolveNames_bad attrs (dirNames attrs) h, exOk]
  | tup t args =>
    simp only [hasBadT, Option.isNone_iff_eq_none] at h
    simp [resolveTree, h, exOk]
  | seq f =>
    simp only [hasBadT] at h
    simp only [resolveTree]
    exact resolveForest_bad f h
theorem resolveForest_bad (f : RegForest) (h : hasBadF f = true) :
    exOk (resolveForest f) = false := by
  cases f with
  | nil => exact absurd h (by simp [hasBadF])
  | cons t f =>
    simp only [hasBadF, Bool.or_eq_true] at h
    simp only [resolveForest]
    rcases h with h | h
    · have hb := resolveTree_bad t h
      cases ht : resolveTree t with
      | error e => rfl
      | ok l => rw [ht] at hb; simp [exOk] at hb
    · cases ht : resolveTree t with
      | error e => rfl
      | ok l =>
        have hb := resolveForest_bad f h
        cases hf : resolveForest f with
        | error e => simp [exOk]
        | ok l2 => rw [hf] at hb; simp [exOk] at hb
end

/-- C7: registration flattens nested shapes into the flat, order-preserving
list of resolved concrete instances. (1) registering any item equals folding
_register_one over the item's flat resolution (i.e. registering each resolved
instance individually, in order); (2) a sequence item registers exactly as its
elements; (3) flat resolution distributes, order-preserving, over sequence
concatenation; (4) every item containing a component that does not ultimately
resolve to a concrete descriptor instance (a non-descriptor object, a
non-Descriptor type, a non-class public module attribute, or a failing
`(type, *args)` construction) makes registration fail with a registration
error. -/
theorem c7_register_flatten :
    (∀ (c : Calculator) (t : RegTree),
        registerTree c t =
          match resolveTree t with
          | Except.error e => Except.error e
          | Except.ok l => Except.ok (l.foldl register_one c)) ∧
    (∀ (c : Calculator) (f : RegForest),
        registerTree c (RegTree.seq f) = registerForest c f) ∧
    (∀ f1 f2 : RegForest,
        resolveForest (RegForest.append f1 f2) =
          match resolveForest f1 with
          | Except.error e => Except.error e
          | Except.ok l1 =>
            match resolveForest f2 with
            | Except.error e => Except.error e
            | Except.ok l2 => Except.ok (l1 ++ l2)) ∧
    (∀ f : RegForest, hasBadF f = true → exOk (resolveForest f) = false) := by
  refine ⟨registerTree_eq, fun c f => rfl, resolveForest_append, resolveForest_bad⟩

/-- C7 witness: the failure conjunct at a concrete forest containing a
non-descriptor object. -/
theorem c7_register_flatten_w :
    exOk (resolveForest (RegForest.cons RegTree.nonDesc RegForest.nil)) = false :=
  c7_register_flatten.2.2.2 (RegForest.cons RegTree.nonDesc RegForest.nil) (by decide)

/-! Module registration order (C10). -/

theorem lookupAttr_perm :
    ∀ {l1 l2 : List (String × MAttr)}, l1.Perm l2 → (l1.map Prod.fst).Nodup →
      ∀ n, lookupAttr l1 n = lookupAttr l2 n := by
  intro l1 l2 h
  induction h with
  | nil => intro _ n; rfl
  | cons x h ih =>
    intro nd n
    obtain ⟨m, a⟩ := x
    simp only [List.map_cons, List.nodup_cons] at nd
    simp only [lookupAttr]
    by_cases hm : m = n
    · rw [if_pos hm, if_pos hm]
    · rw [if_neg hm, if_neg hm]
      exact ih nd.2 n
  | swap x y l =>
    intro nd n
    obtain ⟨m1, a1⟩ := x
    obtain ⟨m2, a2⟩ := y
    simp only [List.map_cons, List.nodup_cons, List.mem_cons] at nd
    simp only [lookupAttr]
    by_cases h2 : m2 = n
    · by_cases h1 : m1 = n
      · exact absurd (Or.inl (h2.trans h1.symm)) nd.1
      · rw [if_pos h2, if_neg h1, if_pos h2]
    · by_cases h1 : m1 = n
      · rw [if_neg h2, if_pos h1, if_pos h1]
      · rw [if_neg h2, if_neg h1, if_neg h1, if_neg h2]
  | trans h1 h2 ih1 ih2 =>
    intro nd n
    have nd2 := ((h1.map Prod.fst).nodup_iff).mp nd
    rw [ih1 nd n, ih2 nd2 n]

theorem dirNames_perm {a1 a2 : List (String × MAttr)} (h : a1.Perm a2) :
    dirNames a1 = dirNames a2 := by
  haveI ht : IsTrans String (fun a b => a.data ≤ b.data) :=
    ⟨fun _ _ _ h1 h2 => le_trans h1 h2⟩
  haveI : IsTotal String (fun a b => a.data ≤ b.data) :=
    ⟨fun a b => le_total a.data b.data⟩
  haveI : IsAntisymm String (fun a b => a.data ≤ b.data) :=
    ⟨fun a b h1 h2 => by
      cases a
      cases b
      exact congrArg String.mk (le_antisymm h1 h2)⟩
  have hperm : (dirNames a1).Perm (dirNames a2) :=
    (List.perm_insertionSort _ _).trans
      ((h.map Prod.fst).trans (List.perm_insertionSort _ _).symm)
  exact List.eq_of_perm_of_sorted hperm
    (List.sorted_insertionSort _ _) (List.sorted_insertionSort _ _)

theorem resolveNames_congr (a1 a2 : List (String × MAttr))
    (hl : ∀ n, lookupAttr a1 n = lookupAttr a2 n) :
    ∀ ns, resolveNames a1 ns = resolveNames a2 ns := by
  intro ns
  induction ns with
  | nil => rfl
  | cons n rest ih => simp only [resolveNames, hl n, ih]

theorem resolveMod_perm (a1 a2 : List (String × MAttr)) (h : a1.Perm a2)
    (nd : (a1.map Prod.fst).Nodup) :
    resolveTree (RegTree.mod a1) = resolveTree (RegTree.mod a2) := by
  simp only [resolveTree]
  rw [dirNames_perm h]
  exact resolveNames_congr a1 a2 (lookupAttr_perm h nd) (dirNames a2)

theorem resolveNames_orderedInsert_skip (attrs : List (String × MAttr)) (n : String)
    (hu : underscoreFirst n = true) :
    ∀ ns, resolveNames attrs (List.orderedInsert (fun a b => a.data ≤ b.data) n ns) =
      resolveNames attrs ns := by
  intro ns
  induction ns with
  | nil => simp [List.orderedInsert, resolveNames, hu]
  | cons m ms ih =>
    simp only [List.orderedInsert]
    by_cases hle : n.data ≤ m.data
    · rw [if_pos hle]
      simp only [resolveNames, hu, if_true]
    · rw [if_neg hle]
      simp only [resolveNames]
      by_cases hm : underscoreFirst m
      · rw [if_pos hm, if_pos hm]
        exact ih
      · rw [if_neg hm, if_neg hm]
        simp only [ih]

theorem resolveNames_cons_attr (attrs : List (String × MAttr)) (n : String) (a : MAttr) :
    ∀ ns, (∀ m ∈ ns, m ≠ n) →
      resolveNames ((n, a) :: attrs) ns = resolveNames attrs ns := by
  intro ns
  induction ns with
  | nil => intro _; rfl
  | cons m ms ih =>
    intro hm
    have hmn : m ≠ n := hm m (List.mem_cons_self m ms)
    have hms : ∀ x ∈ ms, x ≠ n := fun x hx => hm x (List.mem_cons_of_mem m hx)
    simp only [resolveNames]
    by_cases hs : underscoreFirst m
    · rw [if_pos hs, if_pos hs]
      exact ih hms
    · rw [if_neg hs, if_neg hs]
      simp only [lookupAttr]
      rw [if_neg (fun h => hmn h.symm)]
      simp only [ih hms]

theorem resolveMod_underscore (attrs : List (String × MAttr)) (n : String) (a : MAttr)
    (hu : underscoreFirst n = true) (hn : n ∉ attrs.map Prod.fst) :
    resolveTree (RegTree.mod ((n, a) :: attrs)) = resolveTree (RegTree.mod attrs) := by
  simp only [resolveTree]
  have h1 : dirNames ((n, a) :: attrs) =
      List.orderedInsert (fun a b => a.data ≤ b.data) n (dirNames attrs) := rfl
  rw [h1, resolveNames_orderedInsert_skip ((n, a) :: attrs) n hu (dirNames attrs)]
  apply resolveNames_cons_attr
  intro m hm hcon
  apply hn
  rw [← hcon]
  exact (List.mem_insertionSort _).mp hm

def c10da : Descriptor :=
  Descriptor.mk 31 [] Option.none true false false [] (fun _ _ => Except.ok (Value.int 1))

def c10dz : Descriptor :=
  Descriptor.mk 32 [] Option.none true false false [] (fun _ _ => Except.ok (Value.int 2))

def c10ta : DType := ⟨true, [c10da], fun _ => Option.none⟩

def c10tz : DType := ⟨true, [c10dz], fun _ => Option.none⟩

/-- A module whose definition order is zz before aa, with one underscore
attribute. -/
def c10attrs : List (String × MAttr) :=
  [("zz", MAttr.cls c10tz), ("_hidden", MAttr.nonClass), ("aa", MAttr.cls c10ta)]

/-- C10: module registration processes attributes in alphabetical name order,
independently of their definition order in the module (the result is invariant
under permuting the attribute list, given distinct attribute names), and every
attribute whose name begins with an underscore is skipped (prepending an
underscore-named attribute leaves the result unchanged). In the concrete
module defined with zz before aa plus an underscore attribute, registration
yields aa's preset before zz's, with the underscore attribute skipped. -/
theorem c10_module_order :
    (∀ (a1 a2 : List (String × MAttr)), a1.Perm a2 → (a1.map Prod.fst).Nodup →
        resolveTree (RegTree.mod a1) = resolveTree (RegTree.mod a2)) ∧
    (∀ (attrs : List (String × MAttr)) (n : String) (a : MAttr),
        underscoreFirst n = true → n ∉ attrs.map Prod.fst →
        resolveTree (RegTree.mod ((n, a) :: attrs)) = resolveTree (RegTree.mod attrs)) ∧
    resolveTree (RegTree.mod c10attrs) = Except.ok [c10da, c10dz] := by
  refine ⟨resolveMod_perm, resolveMod_underscore, rfl⟩

/-- C10 witness: both hypothesis-bearing conjuncts at concrete modules. -/
theorem c10_module_order_w :
    resolveTree (RegTree.mod [("b", MAttr.nonClass), ("a", MAttr.nonClass)]) =
        resolveTree (RegTree.mod [("a", MAttr.nonClass), ("b", MAttr.nonClass)]) ∧
    resolveTree (RegTree.mod (("_x", MAttr.nonClass) :: [("aa", MAttr.nonClass)])) =
        resolveTree (RegTree.mod [("aa", MAttr.nonClass)]) := by
  constructor
  · exact c10_module_order.1 _ _
      (List.Perm.swap ("a", MAttr.nonClass) ("b", MAttr.nonClass) []) (by decide)
  · exact c10_module_order.2.1 [("aa", MAttr.nonClass)] "_x" MAttr.nonClass
      (by decide) (by decide)

end Mordred
